import Mathlib

/-!
Verification development for the `x2t` client helper library.

The library has three components, embedded below directly from the source:
* `sign` (x2t/tiktok.py): HMAC-SHA256 request signing over a canonical
  concatenation of secret, endpoint, sorted query parameters and an optional
  JSON-encoded body;
* `request_common` (x2t/tiktok.py): request dispatch with timestamp injection
  and URL building;
* `handler` (x2t/exception.py): a guard converting raised errors into a
  uniform failure record.

Machine integers are modelled as `Nat` with explicit `% 2 ^ 32` where the
source relies on 32-bit wraparound (inside SHA-256); byte strings are
`List Nat` of values `< 256`.
-/

/-! ### Bytes and hex -/

/-- Lowercase hexadecimal digit for a value `< 16` (as produced by Python's
`hexdigest`). -/
def hexDigitLower (n : Nat) : Char :=
  if n < 10 then Char.ofNat (48 + n) else Char.ofNat (87 + n)

/-- Uppercase hexadecimal digit for a value `< 16` (as produced by
`urllib.parse.quote`). -/
def hexDigitUpper (n : Nat) : Char :=
  if n < 10 then Char.ofNat (48 + n) else Char.ofNat (55 + n)

/-- Two lowercase hex characters for one byte. -/
def byteHexLower (b : Nat) : List Char :=
  [hexDigitLower (b / 16 % 16), hexDigitLower (b % 16)]

/-- Lowercase hex string of a byte list, as `hexdigest` renders a digest. -/
def bytesToHexLower (bs : List Nat) : String :=
  String.mk ((bs.map byteHexLower).flatten)

/-- UTF-8 encoding of a single character (code point as `Char.toNat`). -/
def utf8Bytes (c : Char) : List Nat :=
  let n := c.toNat
  if n < 128 then [n]
  else if n < 2048 then [192 + n / 64, 128 + n % 64]
  else if n < 65536 then [224 + n / 4096, 128 + n / 64 % 64, 128 + n % 64]
  else [240 + n / 262144, 128 + n / 4096 % 64, 128 + n / 64 % 64, 128 + n % 64]

/-- UTF-8 encoding of a string, as Python's `str.encode()` produces. -/
def strBytes (s : String) : List Nat :=
  (s.data.map utf8Bytes).flatten

/-! ### SHA-256 (FIPS 180-4), executable over `Nat` words mod `2 ^ 32` -/

/-- 32-bit right rotation of a word `x < 2 ^ 32`. -/
def rotr32 (n x : Nat) : Nat :=
  ((x >>> n) ||| ((x % 2 ^ n) <<< (32 - n)))

/-- SHA-256 choice function. -/
def shaCh (x y z : Nat) : Nat :=
  (x &&& y) ^^^ ((x ^^^ 4294967295) &&& z)

/-- SHA-256 majority function. -/
def shaMaj (x y z : Nat) : Nat :=
  (x &&& y) ^^^ (x &&& z) ^^^ (y &&& z)

/-- SHA-256 big sigma 0. -/
def bigSigma0 (x : Nat) : Nat := rotr32 2 x ^^^ rotr32 13 x ^^^ rotr32 22 x

/-- SHA-256 big sigma 1. -/
def bigSigma1 (x : Nat) : Nat := rotr32 6 x ^^^ rotr32 11 x ^^^ rotr32 25 x

/-- SHA-256 small sigma 0. -/
def smallSigma0 (x : Nat) : Nat := rotr32 7 x ^^^ rotr32 18 x ^^^ (x >>> 3)

/-- SHA-256 small sigma 1. -/
def smallSigma1 (x : Nat) : Nat := rotr32 17 x ^^^ rotr32 19 x ^^^ (x >>> 10)

/-- The 64 SHA-256 round constants. -/
def shaK : List Nat :=
  [1116352408, 1899447441, 3049323471, 3921009573, 961987163, 1508970993,
   2453635748, 2870763221, 3624381080, 310598401, 607225278, 1426881987,
   1925078388, 2162078206, 2614888103, 3248222580, 3835390401, 4022224774,
   264347078, 604807628, 770255983, 1249150122, 1555081692, 1996064986,
   2554220882, 2821834349, 2952996808, 3210313671, 3336571891, 3584528711,
   113926993, 338241895, 666307205, 773529912, 1294757372, 1396182291,
   1695183700, 1986661051, 2177026350, 2456956037, 2730485921, 2820302411,
   3259730800, 3345764771, 3516065817, 3600352804, 4094571909, 275423344,
   430227734, 506948616, 659060556, 883997877, 958139571, 1322822218,
   1537002063, 1747873779, 1955562222, 2024104815, 2227730452, 2361852424,
   2428436474, 2756734187, 3204031479, 3329325298]

/-- The SHA-256 initial hash value. -/
def shaH0 : List Nat :=
  [1779033703, 3144134277, 1013904242, 2773480762, 1359893119, 2600822924,
   528734635, 1541459225]

/-- Big-endian 8-byte encoding of the message bit length. -/
def bigEndian8 (n : Nat) : List Nat :=
  [n / 2 ^ 56 % 256, n / 2 ^ 48 % 256, n / 2 ^ 40 % 256, n / 2 ^ 32 % 256,
   n / 2 ^ 24 % 256, n / 2 ^ 16 % 256, n / 2 ^ 8 % 256, n % 256]

/-- Big-endian 4-byte split of one 32-bit word. -/
def wordBytes (w : Nat) : List Nat :=
  [w / 2 ^ 24 % 256, w / 2 ^ 16 % 256, w / 2 ^ 8 % 256, w % 256]

/-- SHA-256 padding: append `0x80`, zeros to 56 mod 64, then the bit length. -/
def shaPad (msg : List Nat) : List Nat :=
  msg ++ [128] ++ List.replicate ((119 - msg.length % 64) % 64) 0
      ++ bigEndian8 (8 * msg.length)

/-- Group bytes into big-endian 32-bit words. -/
def toWords : List Nat → List Nat
  | b0 :: b1 :: b2 :: b3 :: rest =>
      (b0 * 2 ^ 24 + b1 * 2 ^ 16 + b2 * 2 ^ 8 + b3) :: toWords rest
  | _ => []

/-- Split a byte list into 64-byte blocks; the first argument is fuel, always
called with at least the list length. -/
def chunks64 : Nat → List Nat → List (List Nat)
  | 0, _ => []
  | _, [] => []
  | fuel + 1, b :: rest =>
      (b :: rest).take 64 :: chunks64 fuel ((b :: rest).drop 64)

/-- One message-schedule extension step: append word `W[t]` computed from the
existing schedule. -/
def extendStep (w : List Nat) : List Nat :=
  w ++ [(smallSigma1 (w.getD (w.length - 2) 0) + w.getD (w.length - 7) 0 +
         smallSigma0 (w.getD (w.length - 15) 0) + w.getD (w.length - 16) 0)
        % 2 ^ 32]

/-- Iterate the schedule extension `n` times. -/
def extendSchedule (w : List Nat) : Nat → List Nat
  | 0 => w
  | n + 1 => extendSchedule (extendStep w) n

/-- One SHA-256 compression round on the eight-word working state. -/
def shaRound (st : List Nat) (kw : Nat × Nat) : List Nat :=
  match st with
  | [a, b, c, d, e, f, g, h] =>
      let t1 := (h + bigSigma1 e + shaCh e f g + kw.1 + kw.2) % 2 ^ 32
      let t2 := (bigSigma0 a + shaMaj a b c) % 2 ^ 32
      [(t1 + t2) % 2 ^ 32, a, b, c, (d + t1) % 2 ^ 32, e, f, g]
  | _ => st

/-- Process one 64-byte block against the running hash value. -/
def shaBlock (h : List Nat) (block : List Nat) : List Nat :=
  let w := extendSchedule (toWords block) 48
  let st := (shaK.zip w).foldl shaRound h
  (h.zip st).map (fun p => (p.1 + p.2) % 2 ^ 32)

/-- SHA-256 digest (32 bytes) of a byte list. -/
def sha256 (msg : List Nat) : List Nat :=
  let padded := shaPad msg
  (((chunks64 padded.length padded).foldl shaBlock shaH0).map wordBytes).flatten

/-! ### HMAC (RFC 2104) with SHA-256 -/

/-- HMAC-SHA256 of a message under a key, both byte lists; 64-byte block size,
long keys hashed first, as Python's `hmac.new(..., hashlib.sha256)` does. -/
def hmacSha256 (key msg : List Nat) : List Nat :=
  let k0 := if 64 < key.length then sha256 key else key
  let k := k0 ++ List.replicate (64 - k0.length) 0
  sha256 ((k.map (fun b => b ^^^ 92)) ++ sha256 ((k.map (fun b => b ^^^ 54)) ++ msg))

/-- Lowercase hex digest of HMAC-SHA256 over UTF-8 encoded strings: the value
of `hmac.new(key.encode(), msg.encode(), hashlib.sha256).hexdigest()`. -/
def hmacSha256HexStr (key msg : String) : String :=
  bytesToHexLower (hmacSha256 (strBytes key) (strBytes msg))

/-- FIPS 180-4 test vector: SHA-256 of "abc". -/
example : bytesToHexLower (sha256 (strBytes "abc")) =
    "ba7816bf8f01cfea414140de5dae2223b00361a396177a9cb410ff61f20015ad" := by
  decide

/-- SHA-256 of the empty message. -/
example : bytesToHexLower (sha256 []) =
    "e3b0c44298fc1c149afbf4c8996fb92427ae41e4649b934ca495991b7852b855" := by
  decide

set_option maxRecDepth 100000

/-- RFC-style HMAC-SHA256 test vector. -/
example : hmacSha256HexStr "key" "The quick brown fox jumps over the lazy dog" =
    "f7bc83f430538424b13298e6aa6fb143ef4d59a14946175997479dbc2d1a3cd8" := by
  decide


/-! ### JSON values and Python `json.dumps` -/

mutual
/-- JSON-serializable Python values: `None`, `bool`, `int`, `str`, `list`,
`dict` (fields in insertion order). -/
inductive Json where
  | null
  | bool (b : Bool)
  | num (n : Int)
  | str (s : String)
  | arr (items : JsonItems)
  | obj (fields : JsonFields)

/-- Elements of a JSON array. -/
inductive JsonItems where
  | nil
  | cons (head : Json) (tail : JsonItems)

/-- Fields of a JSON object, in insertion order. -/
inductive JsonFields where
  | nil
  | cons (key : String) (value : Json) (tail : JsonFields)
end

/-- Whether a value is a mapping, Python's `isinstance(body, dict)`. -/
def Json.isObj : Json → Bool
  | .obj _ => true
  | _ => false

/-- Four lowercase hex characters, as in CPython's `\u%04x` escapes. -/
def hex4Lower (n : Nat) : String :=
  String.mk [hexDigitLower (n / 4096 % 16), hexDigitLower (n / 256 % 16),
             hexDigitLower (n / 16 % 16), hexDigitLower (n % 16)]

/-- Escape one character the way `json.dumps` (with its default
`ensure_ascii=True`) renders string contents: backslash escapes for the
quote, the backslash and the usual control shorthands, `\uXXXX` for every
other character outside `0x20`-`0x7e`, surrogate pairs above `0xffff`. -/
def jsonEscapeChar (c : Char) : String :=
  if c = '"' then "\\\""
  else if c = '\\' then "\\\\"
  else if c = '\n' then "\\n"
  else if c = '\r' then "\\r"
  else if c = '\t' then "\\t"
  else if c.toNat = 8 then "\\b"
  else if c.toNat = 12 then "\\f"
  else if c.toNat < 32 || 126 < c.toNat then
    if c.toNat < 65536 then "\\u" ++ hex4Lower c.toNat
    else "\\u" ++ hex4Lower (55296 + (c.toNat - 65536) / 1024) ++
         "\\u" ++ hex4Lower (56320 + (c.toNat - 65536) % 1024)
  else String.singleton c

/-- A JSON string literal as `json.dumps` writes it. -/
def jsonQuote (s : String) : String :=
  "\"" ++ String.join (s.data.map jsonEscapeChar) ++ "\""

mutual
/-- `json.dumps` rendering of one value, parameterized by the item separator
(between array elements and object members) and the key separator (after an
object key). -/
def jsonDumpsSep (itemSep keySep : String) : Json → String
  | .null => "null"
  | .bool true => "true"
  | .bool false => "false"
  | .num n => toString n
  | .str s => jsonQuote s
  | .arr items => "[" ++ jsonDumpsSepItems itemSep keySep items ++ "]"
  | .obj fields => "\x7b" ++ jsonDumpsSepFields itemSep keySep fields ++ "\x7d"

/-- Array elements joined by the item separator. -/
def jsonDumpsSepItems (itemSep keySep : String) : JsonItems → String
  | .nil => ""
  | .cons j .nil => jsonDumpsSep itemSep keySep j
  | .cons j (.cons j2 tail) =>
      jsonDumpsSep itemSep keySep j ++ itemSep ++
        jsonDumpsSepItems itemSep keySep (.cons j2 tail)

/-- Object members `quoted-key keySep value` joined by the item separator. -/
def jsonDumpsSepFields (itemSep keySep : String) : JsonFields → String
  | .nil => ""
  | .cons k v .nil => jsonQuote k ++ keySep ++ jsonDumpsSep itemSep keySep v
  | .cons k v (.cons k2 v2 tail) =>
      jsonQuote k ++ keySep ++ jsonDumpsSep itemSep keySep v ++ itemSep ++
        jsonDumpsSepFields itemSep keySep (.cons k2 v2 tail)
end

/-- `json.dumps(value)` with CPython's default separators: `", "` between
items and `": "` after keys (the defaults used by the source's
`json.dumps(body)` call). -/
def jsonDumps (j : Json) : String :=
  jsonDumpsSep ", " ": " j

/-- `json.dumps(value, separators=(",", ":"))`: the compact encoding with no
space after `","` or `":"`. The source does NOT use this; it is defined here
to state the spec's claim about the body encoding. -/
def jsonDumpsCompact (j : Json) : String :=
  jsonDumpsSep "," ":" j

/-- Default separators keep a space after `":"` and `","`. -/
example :
    jsonDumps (Json.obj (.cons "k" (Json.str "v") (.cons "n" (Json.num 3) .nil))) =
      "\x7b\"k\": \"v\", \"n\": 3\x7d" := by decide

/-- The compact encoding of the same value. -/
example :
    jsonDumpsCompact (Json.obj (.cons "k" (Json.str "v") (.cons "n" (Json.num 3) .nil))) =
      "\x7b\"k\":\"v\",\"n\":3\x7d" := by decide

/-! ### Sorting keys: Python's `sorted` on strings -/

/-- Lexicographic code-point comparison of character lists: Python's `<` on
strings. -/
def charsLt : List Char → List Char → Bool
  | [], [] => false
  | [], _ :: _ => true
  | _ :: _, [] => false
  | a :: as, b :: bs =>
      Nat.blt a.toNat b.toNat || (Nat.beq a.toNat b.toNat && charsLt as bs)

/-- Python's `a < b` on strings. -/
def strLtB (a b : String) : Bool := charsLt a.data b.data

/-- Insert a string into an already sorted list of strings. -/
def insertSorted (x : String) : List String → List String
  | [] => [x]
  | y :: ys => if strLtB x y then x :: y :: ys else y :: insertSorted x ys

/-- Insertion sort by code-point order; on the duplicate-free key lists of a
Python dict this agrees with `sorted`. -/
def sortKeys : List String → List String
  | [] => []
  | x :: xs => insertSorted x (sortKeys xs)

example : sortKeys ["b", "app_key", "B", "a"] = ["B", "a", "app_key", "b"] := by
  decide

/-! ### `sign` (x2t/tiktok.py) -/

/-- The two key literals excluded from signing. -/
def reservedKeys : List String := ["sign", "access_token"]

/-- `sorted(key for key in params if key not in ["sign", "access_token"])`:
the selected, sorted signing keys. `params` is a Python dict modelled as an
association list in insertion order with distinct keys; values are the
(string) parameter values. -/
def signingKeys (params : List (String × String)) : List String :=
  sortKeys ((params.map Prod.fst).filter (fun k => !(reservedKeys.contains k)))

/-- `"".join(key + str(params[key]) for key in keys)`: the concatenated
key/value string (values are strings, so `str` is the identity). -/
def signInputData (params : List (String × String)) : String :=
  String.join ((signingKeys params).map (fun k => k ++ ((params.lookup k).getD "")))

/-- The key/value concatenation followed, when `body` is a dict, by
`json.dumps(body)`; any non-dict body (including `None`) is skipped by the
source's `isinstance(body, dict)` test. -/
def signBodyInput (params : List (String × String)) (body : Option Json) : String :=
  match body with
  | some (Json.obj fields) => signInputData params ++ jsonDumps (Json.obj fields)
  | _ => signInputData params

/-- `sign(endpoint, params, app_secret, body)` from x2t/tiktok.py: the
HMAC-SHA256 hex digest, keyed with `app_secret`, of
`app_secret + endpoint + input_data + app_secret`. -/
def sign (endpoint : String) (params : List (String × String)) (app_secret : String)
    (body : Option Json := none) : String :=
  hmacSha256HexStr app_secret
    (app_secret ++ endpoint ++ signBodyInput params body ++ app_secret)

/-- The signing-key selection and concatenation exactly as the specification
words it: "concatenation, in lexicographically sorted order of the selected
keys, of key + string value", the selected keys being "all keys in `params`
except the literals `sign` and `access_token`". Stated from the spec, to be
compared with the source-derived `signInputData`. -/
def specSortedKeyConcat (params : List (String × String)) : String :=
  String.join
    ((sortKeys ((params.map Prod.fst).filter (fun k => k != "sign" && k != "access_token"))).map
      (fun k => k ++ ((params.lookup k).getD "")))

/-- The signature as the specification describes it: HMAC-SHA256, keyed with
`app_secret`, over `app_secret + endpoint + (sorted key/value concatenation
followed by the JSON-encoded body if present) + app_secret`, rendered as the
lowercase hex digest. The optional body is a mapping, matching the source's
documented `body (dict, optional)` parameter. Stated from the spec, to be
compared with the source-derived `sign`. -/
def signSpec (endpoint : String) (params : List (String × String)) (app_secret : String)
    (bodyFields : Option JsonFields) : String :=
  hmacSha256HexStr app_secret
    (app_secret ++ endpoint ++
      (specSortedKeyConcat params ++
        (match bodyFields with
         | some fs => jsonDumps (Json.obj fs)
         | none => "")) ++ app_secret)

/-! ### `urllib.parse.urlencode` -/

/-- Bytes `urllib.parse.quote` leaves unescaped: ASCII letters, digits and
`_`, `.`, `-`, `~`. -/
def isUrlSafeByte (b : Nat) : Bool :=
  (Nat.ble 48 b && Nat.ble b 57) || (Nat.ble 65 b && Nat.ble b 90) ||
    (Nat.ble 97 b && Nat.ble b 122) || b == 95 || b == 46 || b == 45 || b == 126

/-- `quote_plus` treatment of one UTF-8 byte: space becomes `+`, safe bytes
stay themselves, everything else is percent-encoded with uppercase hex. -/
def quoteByte (b : Nat) : String :=
  if b == 32 then "+"
  else if isUrlSafeByte b then String.singleton (Char.ofNat b)
  else "%" ++ String.mk [hexDigitUpper (b / 16 % 16), hexDigitUpper (b % 16)]

/-- `urllib.parse.quote_plus(s)` over the UTF-8 encoding of `s`. -/
def quotePlus (s : String) : String :=
  String.join ((strBytes s).map quoteByte)

/-- `urllib.parse.urlencode(params)`: percent-encoded `key=value` pairs
joined by `&`, in the order of the mapping. -/
def urlencode (params : List (String × String)) : String :=
  String.intercalate "&" (params.map (fun kv => quotePlus kv.1 ++ "=" ++ quotePlus kv.2))

example : urlencode [("a b", "1&2"), ("app_key", "x~y/z")] = "a+b=1%262&app_key=x~y%2Fz" := by
  decide

/-! ### `request_common` (x2t/tiktok.py) -/

/-- `str.rstrip("/")`: remove every trailing slash. -/
def stripTrailingSlashes (s : String) : String :=
  String.mk ((s.data.reverse.dropWhile (fun c => c == '/')).reverse)

/-- `str.lstrip("/")`: remove every leading slash. -/
def stripLeadingSlashes (s : String) : String :=
  String.mk (s.data.dropWhile (fun c => c == '/'))

/-- The `method` argument of `request_common`: one of the five `requests`
functions `get`, `post`, `put`, `patch`, `delete`, or any other callable
(`other`), which the membership test `method in {get, post, put, patch,
delete}` rejects. -/
inductive HttpMethod where
  | get
  | post
  | put
  | patch
  | delete
  | other (name : String)
deriving DecidableEq

/-- The membership test `method in {get, post, put, patch, delete}`. -/
def isAllowedMethod : HttpMethod → Bool
  | .other _ => false
  | _ => true

/-- The `ValueError` message raised for a rejected method. -/
def invalidMethodMessage : String :=
  "Invalid method. Method must be one of: post, put, patch, delete."

/-- The single outbound HTTP call `method(url=url, headers=headers,
json=body)` performed by `request_common`: its URL (with the query string
built from `queryParams`), headers, JSON body and verb. -/
structure HttpRequest where
  url : String
  queryParams : List (String × String)
  headers : Option (List (String × String))
  jsonBody : Option Json
  method : HttpMethod

/-- What a successful `request_common` call did: the one network request it
issued, and the state of the caller-supplied `params` dict after the call
(Python passes the dict by reference, so in-place updates are visible to the
caller; `None` means the caller passed no dict). -/
structure DispatchOutcome where
  request : HttpRequest
  callerParams : Option (List (String × String))

/-- `request_common(base_url, endpoint, method, params, headers, body)` from
x2t/tiktok.py, with the call-time clock `int(datetime.timestamp(
datetime.now()))` passed explicitly as `now`. An invalid method raises
`ValueError` (modelled as `Except.error`) before any network I/O — the
`HttpRequest` describing the one outbound call exists only in the `ok`
branch. `params or {}` replaces both `None` and the falsy empty dict by a
fresh dict, so only a caller-supplied non-empty dict is mutated in place. -/
def requestCommon (base_url endpoint : String) (method : HttpMethod)
    (params : Option (List (String × String)))
    (headers : Option (List (String × String)))
    (body : Option Json) (now : Nat) : Except String DispatchOutcome :=
  if isAllowedMethod method = false then
    Except.error invalidMethodMessage
  else
    let p0 := params.getD []
    let p1 := if (p0.map Prod.fst).contains "timestamp" then p0
              else p0 ++ [("timestamp", toString now)]
    let query_string := urlencode p1
    let url := stripTrailingSlashes base_url ++ "/" ++ stripLeadingSlashes endpoint
                 ++ "?" ++ query_string
    Except.ok
      { request := { url := url, queryParams := p1, headers := headers,
                     jsonBody := body, method := method }
        callerParams :=
          match params with
          | none => none
          | some l => if l.isEmpty then some l else some p1 }

/-! ### `handler` (x2t/exception.py) -/

/-- The body of the `wrapper` closure produced by `handler(log, timing)`
around a callable `f`: run `f`; on success return its result unchanged, and
on any raised error (modelled as `Except.error` carrying `str(e)`) swallow
it and return the failure record `[("error", str(e)), ("status", "failed")]`
instead. The `log` and `timing` flags only drive logging, which is I/O and
does not affect the returned value. -/
def handlerWrap (log timing : Bool) (f : Unit → Except String α) :
    Unit → α ⊕ List (String × String) :=
  fun _ =>
    match f () with
    | Except.ok v => Sum.inl v
    | Except.error e => Sum.inr [("error", e), ("status", "failed")]

/-! ### Supporting lemmas -/

theorem mem_insertSorted {x a : String} {l : List String} :
    x ∈ insertSorted a l ↔ x = a ∨ x ∈ l := by
  induction l with
  | nil => simp [insertSorted]
  | cons y ys ih =>
      unfold insertSorted
      split
      · simp
      · simp [List.mem_cons, ih]
        tauto

theorem mem_sortKeys {x : String} {l : List String} : x ∈ sortKeys l ↔ x ∈ l := by
  induction l with
  | nil => simp [sortKeys]
  | cons y ys ih => simp [sortKeys, mem_insertSorted, ih]

theorem keys_contains_eq_lookup_isSome (k : String) (l : List (String × String)) :
    (l.map Prod.fst).contains k = (List.lookup k l).isSome := by
  induction l with
  | nil => rfl
  | cons hd tl ih =>
      obtain ⟨a, v⟩ := hd
      cases h : k == a <;>
          rw [List.map_cons, List.contains_cons, List.lookup_cons, h] <;>
        first
        | rfl
        | (rw [ih]; rfl)

theorem lookup_eq_none_of_contains_false {k : String} {l : List (String × String)}
    (h : (l.map Prod.fst).contains k = false) : List.lookup k l = none := by
  have hs := keys_contains_eq_lookup_isSome k l
  rw [h] at hs
  cases hl : List.lookup k l with
  | none => rfl
  | some v => rw [hl] at hs; simp at hs

theorem lookup_isSome_of_contains_true {k : String} {l : List (String × String)}
    (h : (l.map Prod.fst).contains k = true) : (List.lookup k l).isSome = true := by
  rw [← keys_contains_eq_lookup_isSome]; exact h

theorem mem_signingKeys_not_reserved {k : String} {p : List (String × String)}
    (h : k ∈ signingKeys p) : k ≠ "sign" ∧ k ≠ "access_token" := by
  unfold signingKeys at h
  rw [mem_sortKeys] at h
  have hp := (List.mem_filter.mp h).2
  simp [reservedKeys] at hp
  exact hp

theorem lookup_reserved_pair_none {k v1 v2 : String}
    (h1 : k ≠ "sign") (h2 : k ≠ "access_token") :
    List.lookup k [("sign", v1), ("access_token", v2)] = none := by
  have b1 : (k == "sign") = false := by simp [h1]
  have b2 : (k == "access_token") = false := by simp [h2]
  simp [List.lookup_cons, b1, b2]

theorem signingKeys_append_reserved (p : List (String × String)) (v1 v2 : String) :
    signingKeys (p ++ [("sign", v1), ("access_token", v2)]) = signingKeys p := by
  unfold signingKeys
  rw [List.map_append, List.filter_append]
  have hnil : List.filter (fun k => !(reservedKeys.contains k))
      (List.map Prod.fst [("sign", v1), ("access_token", v2)]) = [] := rfl
  rw [hnil, List.append_nil]

theorem signInputData_append_reserved (p : List (String × String)) (v1 v2 : String) :
    signInputData (p ++ [("sign", v1), ("access_token", v2)]) = signInputData p := by
  unfold signInputData
  rw [signingKeys_append_reserved]
  refine congrArg String.join (List.map_congr_left ?_)
  intro k hk
  obtain ⟨h1, h2⟩ := mem_signingKeys_not_reserved hk
  rw [List.lookup_append, lookup_reserved_pair_none h1 h2]
  cases List.lookup k p <;> rfl

theorem signInputData_eq_spec (p : List (String × String)) :
    signInputData p = specSortedKeyConcat p := by
  unfold signInputData specSortedKeyConcat signingKeys
  have hpred : ∀ k : String,
      (!(reservedKeys.contains k)) = (k != "sign" && k != "access_token") := by
    intro k
    by_cases h1 : k = "sign" <;> by_cases h2 : k = "access_token" <;>
      simp [reservedKeys, h1, h2]
  rw [List.filter_congr (fun a _ => hpred a)]

/-- The body handling claim C3 asserts: the body JSON-encoded with compact
separators (no space after `","` or `":"`), appended to the concatenated
key/value string, signed the same way otherwise. Stated from the claim, to
be compared with the source-derived `sign`. -/
def signClaimCompactBody (endpoint : String) (params : List (String × String))
    (app_secret : String) (bodyFields : JsonFields) : String :=
  hmacSha256HexStr app_secret
    (app_secret ++ endpoint ++
      (signInputData params ++ jsonDumpsCompact (Json.obj bodyFields)) ++ app_secret)

/-! ### The claims -/

/-- C1: for every endpoint, params mapping, app_secret and optional
(mapping-typed) body, `sign` returns the lowercase hex digest of
HMAC-SHA256, keyed with `app_secret`, over `app_secret + endpoint +
(concatenation in sorted key order of key + string value, followed by the
JSON-encoded body if present) + app_secret` — the source-derived `sign`
coincides with the spec-worded `signSpec` on all inputs. -/
theorem sign_matches_spec_formula (e : String) (p : List (String × String))
    (s : String) (ob : Option JsonFields) :
    sign e p s (ob.map Json.obj) = signSpec e p s ob := by
  cases ob with
  | none => simp [sign, signBodyInput, signSpec, signInputData_eq_spec,
                  String.append_empty]
  | some fs => simp [sign, signBodyInput, signSpec, signInputData_eq_spec]

/-- C2: `request_common` fails with the `ValueError` exactly when the method
is outside `{get, post, put, patch, delete}`; the error is returned before
any `HttpRequest` is formed, so no network I/O happens, and an allowed
method never produces this error. -/
theorem requestCommon_rejects_invalid_method (base ep : String) (m : HttpMethod)
    (params headers : Option (List (String × String))) (body : Option Json)
    (now : Nat) :
    requestCommon base ep m params headers body now =
        Except.error invalidMethodMessage ↔
      isAllowedMethod m = false := by
  cases m <;> simp [requestCommon, isAllowedMethod]

/-- C3 counterexample: at a concrete input, the signature the source
computes (body encoded by `json.dumps` with its default `", "`/`": "`
separators) differs from the one the claim asserts (compact separators with
no space after `","` or `":"`). -/
theorem sign_compact_separators_counterexample :
    sign "/api/orders" [("app_key", "abc")] "secret"
        (some (Json.obj (.cons "k" (Json.str "v") .nil))) ≠
      signClaimCompactBody "/api/orders" [("app_key", "abc")] "secret"
        (.cons "k" (Json.str "v") .nil) := by
  decide

/-- C3 amended: for every mapping-valued body, `sign` appends the body
JSON-encoded by `json.dumps` with Python's default separators — `", "`
between members and `": "` after keys (so with a space, not the compact
form) — to the concatenated key/value string before signing. -/
theorem sign_body_encoded_default_separators (e : String)
    (p : List (String × String)) (s : String) (fields : JsonFields) :
    sign e p s (some (Json.obj fields)) =
      hmacSha256HexStr s
        (s ++ e ++ (specSortedKeyConcat p ++ jsonDumpsSep ", " ": " (Json.obj fields)) ++ s) := by
  simp [sign, signBodyInput, signInputData_eq_spec, jsonDumps]

/-- C4: the keys `"sign"` and `"access_token"` never influence the
signature: adding them to any params mapping, with any values, leaves the
digest unchanged (so a params mapping with them and one without them sign
identically). -/
theorem sign_ignores_reserved_keys (e s : String) (b : Option Json)
    (p : List (String × String)) (v1 v2 : String) :
    sign e (p ++ [("sign", v1), ("access_token", v2)]) s b = sign e p s b := by
  have hb : signBodyInput (p ++ [("sign", v1), ("access_token", v2)]) b =
      signBodyInput p b := by
    cases b with
    | none => simp [signBodyInput, signInputData_append_reserved]
    | some j => cases j <;> simp [signBodyInput, signInputData_append_reserved]
  simp [sign, hb]

/-- C5: `sign` is deterministic — two calls with identical endpoint, params
(same keys, values and order), app_secret and body return identical hex
digests. -/
theorem sign_deterministic (e1 e2 : String) (p1 p2 : List (String × String))
    (s1 s2 : String) (b1 b2 : Option Json)
    (he : e1 = e2) (hp : p1 = p2) (hs : s1 = s2) (hb : b1 = b2) :
    sign e1 p1 s1 b1 = sign e2 p2 s2 b2 := by
  subst he hp hs hb; rfl

/-- Witness for C5 at a concrete input. -/
theorem sign_deterministic_witness :
    sign "/api" [("app_key", "abc")] "secret" none =
      sign "/api" [("app_key", "abc")] "secret" none :=
  sign_deterministic "/api" "/api" [("app_key", "abc")] [("app_key", "abc")]
    "secret" "secret" none none rfl rfl rfl rfl

/-- C6: under any allowed method, when the caller's params lack a
`"timestamp"` key the dispatched query parameters are the params with
`("timestamp", str(now))` appended, and looking up `"timestamp"` in the
dispatched query yields the stringified call-time clock; when the key is
present, the params (and so the looked-up value) pass through unchanged. -/
theorem requestCommon_injects_timestamp (base ep : String) (m : HttpMethod)
    (params headers : Option (List (String × String))) (body : Option Json)
    (now : Nat) (h : isAllowedMethod m = true) :
    Except.map (fun o => o.request.queryParams)
        (requestCommon base ep m params headers body now) =
      Except.ok
        (if ((params.getD []).map Prod.fst).contains "timestamp" then params.getD []
         else params.getD [] ++ [("timestamp", toString now)]) ∧
    Except.map (fun o => List.lookup "timestamp" o.request.queryParams)
        (requestCommon base ep m params headers body now) =
      Except.ok (some ((List.lookup "timestamp" (params.getD [])).getD (toString now))) := by
  constructor
  · simp [requestCommon, h, Except.map]
  · simp [requestCommon, h, Except.map]
    cases hc : ((params.getD []).map Prod.fst).contains "timestamp"
    · simp [hc, List.lookup_append, lookup_eq_none_of_contains_false hc,
            List.lookup_cons]
    · simp [hc]
      obtain ⟨v, hv⟩ :=
        Option.isSome_iff_exists.mp (lookup_isSome_of_contains_true hc)
      simp [hv]

/-- Witness for C6 at a concrete input: the timestamp is appended and found. -/
theorem requestCommon_injects_timestamp_witness :
    Except.map (fun o => o.request.queryParams)
        (requestCommon "https://api.example.com" "/data" HttpMethod.post
          (some [("app_key", "abc")]) none none 1700000000) =
      Except.ok [("app_key", "abc"), ("timestamp", "1700000000")] ∧
    Except.map (fun o => List.lookup "timestamp" o.request.queryParams)
        (requestCommon "https://api.example.com" "/data" HttpMethod.post
          (some [("app_key", "abc")]) none none 1700000000) =
      Except.ok (some "1700000000") := by
  have h := requestCommon_injects_timestamp "https://api.example.com" "/data"
    HttpMethod.post (some [("app_key", "abc")]) none none 1700000000 rfl
  refine ⟨?_, ?_⟩
  · rw [h.1]; rfl
  · rw [h.2]; rfl

/-- C7: under any allowed method, the dispatched URL is the base URL with
trailing slashes stripped, then `/`, then the endpoint with leading slashes
stripped, then `?`, then `urlencode` of the (timestamp-completed) params,
percent-encoded pairs joined by `&` in mapping order; when the caller's
params already contain `"timestamp"`, that argument of `urlencode` is the
caller's params themselves. -/
theorem requestCommon_url_construction (base ep : String) (m : HttpMethod)
    (params headers : Option (List (String × String))) (body : Option Json)
    (now : Nat) (h : isAllowedMethod m = true) :
    Except.map (fun o => o.request.url)
        (requestCommon base ep m params headers body now) =
      Except.ok
        (stripTrailingSlashes base ++ "/" ++ stripLeadingSlashes ep ++ "?" ++
          urlencode
            (if ((params.getD []).map Prod.fst).contains "timestamp" then params.getD []
             else params.getD [] ++ [("timestamp", toString now)])) := by
  simp [requestCommon, h, Except.map]

/-- Witness for C7 at a concrete input, the URL fully evaluated. -/
theorem requestCommon_url_construction_witness :
    Except.map (fun o => o.request.url)
        (requestCommon "https://api.example.com/" "/data" HttpMethod.get
          (some [("app_key", "a b")]) none none 1700000000) =
      Except.ok "https://api.example.com/data?app_key=a+b&timestamp=1700000000" := by
  rw [requestCommon_url_construction "https://api.example.com/" "/data"
    HttpMethod.get (some [("app_key", "a b")]) none none 1700000000 rfl]
  rfl

/-- C8: the guard never propagates an error from the wrapped callable: on
success it returns the callable's value unchanged, and on any raised error
it returns the uniform failure record; in particular a callable raising
`ZeroDivisionError` (message "division by zero") yields
`[("error", "division by zero"), ("status", "failed")]`. -/
theorem handlerWrap_never_propagates {α : Type u} (log timing : Bool)
    (f : Unit → Except String α) :
    (match f () with
     | Except.ok v => handlerWrap log timing f () = Sum.inl v
     | Except.error e =>
         handlerWrap log timing f () = Sum.inr [("error", e), ("status", "failed")]) ∧
    handlerWrap log timing (fun _ => (Except.error "division by zero" : Except String α)) () =
      Sum.inr [("error", "division by zero"), ("status", "failed")] := by
  constructor
  · cases h : f () <;> simp [handlerWrap, h]
  · rfl

/-- C9 counterexample: `request_common` mutates the caller's params in
place — after a call with a non-empty params mapping lacking `"timestamp"`,
the caller's mapping has gained a `"timestamp"` entry, so it is not
unchanged. -/
theorem requestCommon_mutates_caller_params :
    Except.map (fun o => o.callerParams)
        (requestCommon "https://api.example.com" "/data" HttpMethod.get
          (some [("app_key", "abc")]) none none 1700000000) =
      Except.ok (some [("app_key", "abc"), ("timestamp", "1700000000")]) ∧
    (some [("app_key", "abc"), ("timestamp", "1700000000")] :
        Option (List (String × String))) ≠ some [("app_key", "abc")] := by
  exact ⟨rfl, by decide⟩

/-- C9 amended: after a `request_common` call the caller's params mapping is
unchanged, except that a caller-supplied non-empty mapping lacking a
`"timestamp"` key gains the appended entry `("timestamp", str(now))` (the
`params or {}` idiom shields `None` and the falsy empty dict from the
in-place update). -/
theorem requestCommon_caller_params_after (base ep : String) (m : HttpMethod)
    (params headers : Option (List (String × String))) (body : Option Json)
    (now : Nat) (h : isAllowedMethod m = true) :
    Except.map (fun o => o.callerParams)
        (requestCommon base ep m params headers body now) =
      Except.ok
        (match params with
         | none => none
         | some l =>
             some (if l.isEmpty then l
                   else if (l.map Prod.fst).contains "timestamp" then l
                   else l ++ [("timestamp", toString now)])) := by
  cases params with
  | none => simp [requestCommon, h, Except.map]
  | some l =>
      by_cases he : l.isEmpty <;> simp [requestCommon, h, Except.map, he]

/-- Witness for C9's amended claim at a concrete input. -/
theorem requestCommon_caller_params_after_witness :
    Except.map (fun o => o.callerParams)
        (requestCommon "https://api.example.com" "/data" HttpMethod.put
          (some [("app_key", "abc"), ("timestamp", "42")]) none none 1700000000) =
      Except.ok (some [("app_key", "abc"), ("timestamp", "42")]) := by
  rw [requestCommon_caller_params_after "https://api.example.com" "/data"
    HttpMethod.put (some [("app_key", "abc"), ("timestamp", "42")]) none none
    1700000000 rfl]
  rfl

/-- C10: a body that is not a mapping (list, string, number, bool or null)
is silently ignored by `sign`: the signature equals the one computed with no
body at all. -/
theorem sign_ignores_non_dict_body (e : String) (p : List (String × String))
    (s : String) (j : Json) (h : j.isObj = false) :
    sign e p s (some j) = sign e p s none := by
  cases j <;> simp_all [Json.isObj, sign, signBodyInput]

/-- Witness for C10 at a concrete non-mapping body. -/
theorem sign_ignores_non_dict_body_witness :
    sign "/api" [("app_key", "abc")] "secret" (some (Json.str "ignored")) =
      sign "/api" [("app_key", "abc")] "secret" none :=
  sign_ignores_non_dict_body "/api" [("app_key", "abc")] "secret"
    (Json.str "ignored") rfl
